import Mathlib

/-!
Shallow embedding of the System Integration Program (S.I.) core:
`src/integration_engine.py` (IntegrationEngine), `src/self_healing.py`
(SelfHealing) and `src/quantum_ai_core.py` (QuantumAICore).

Python dicts are embedded as insertion-ordered association lists
`List (String × β)`: assignment to an existing key replaces the value in
place, assignment to a fresh key appends at the end, and iteration order
is list order — matching CPython dict semantics.  Wall-clock timestamps
(`time.time()`) are passed in explicitly as `Nat` parameters; they never
influence control flow in the source.  Opaque payload/config dicts are
embedded as `List (String × String)`.
-/

/-- A Python `dict[str, β]` with insertion order: lookup of a key. -/
def dictGet {β : Type} (k : String) : List (String × β) → Option β
  | [] => none
  | p :: rest => if p.1 = k then some p.2 else dictGet k rest

/-- Python `d[k] = v`: replace in place if `k` is a key, else append. -/
def dictInsert {β : Type} (k : String) (v : β) : List (String × β) → List (String × β)
  | [] => [(k, v)]
  | p :: rest => if p.1 = k then (k, v) :: rest else p :: dictInsert k v rest

/-- Python in-place mutation of the value at an existing key `k`
(no-op when `k` is absent, matching mutation through a lookup that the
caller has already guarded). -/
def dictUpdate {β : Type} (k : String) (f : β → β) : List (String × β) → List (String × β)
  | [] => []
  | p :: rest => if p.1 = k then (p.1, f p.2) :: rest else p :: dictUpdate k f rest

/-- Opaque string-keyed mapping used for payloads and configs. -/
def StrDict : Type := List (String × String)

instance : DecidableEq StrDict := by
  unfold StrDict
  infer_instance

/-- A service record, as built by `IntegrationEngine.register_service`
(`src/integration_engine.py` lines 37-44). -/
structure Service where
  type : String
  endpoint : String
  config : StrDict
  status : String
  registered_at : Nat
  message_count : Nat
deriving DecidableEq

/-- A message record, as built by `IntegrationEngine.send_message`
(`src/integration_engine.py` lines 52-65).  `error` is `none` unless the
error key was set. -/
structure Message where
  source : String
  target : String
  payload : StrDict
  timestamp : Nat
  status : String
  error : Option String
deriving DecidableEq

/-- State of `IntegrationEngine` (`src/integration_engine.py` lines 27-33). -/
structure IntegrationEngine where
  registered_services : List (String × Service)
  message_queue : List Message
  processed_messages : List Message
  integration_log : List Message
  start_time : Nat
deriving DecidableEq

/-- `IntegrationEngine.__init__`. -/
def IntegrationEngine.init (now : Nat) : IntegrationEngine :=
  { registered_services := []
    message_queue := []
    processed_messages := []
    integration_log := []
    start_time := now }

/-- `IntegrationEngine.register_service`: unconditionally assigns a fresh
record (status `active`, zero message count) under `name`.  The Python
default `config or {}` collapses both `None` and `{}` to `{}`, embedded
as `config.getD []` (an explicit `some []` also yields `[]`). -/
def IntegrationEngine.register_service (e : IntegrationEngine) (name service_type : String)
    (endpoint : String) (config : Option StrDict) (now : Nat) : IntegrationEngine :=
  { e with
    registered_services :=
      dictInsert name
        ({ type := service_type
           endpoint := endpoint
           config := config.getD []
           status := "active"
           registered_at := now
           message_count := 0 } : Service)
        e.registered_services }

/-- `IntegrationEngine.send_message`: builds a `pending` message, resolves
it to `error` (target unregistered) or `delivered` (incrementing the
target's `message_count`), then appends it to both `message_queue` and
`processed_messages`.  Returns the message and the updated engine. -/
def IntegrationEngine.send_message (e : IntegrationEngine) (source target : String)
    (payload : StrDict) (now : Nat) : Message × IntegrationEngine :=
  let pending : Message :=
    { source := source
      target := target
      payload := payload
      timestamp := now
      status := "pending"
      error := none }
  let resolved : Message × List (String × Service) :=
    if (dictGet target e.registered_services).isNone then
      ({ pending with
          status := "error"
          error := some ("Service " ++ target ++ " not registered") },
       e.registered_services)
    else
      ({ pending with status := "delivered" },
       dictUpdate target (fun s => { s with message_count := s.message_count + 1 })
         e.registered_services)
  (resolved.1,
   { e with
      registered_services := resolved.2
      message_queue := e.message_queue ++ [resolved.1]
      processed_messages := e.processed_messages ++ [resolved.1] })

/-- One iteration of the `broadcast` loop body: skip `source`, otherwise
send and collect the result. -/
def broadcastStep (source : String) (payload : StrDict) (now : Nat)
    (acc : List Message × IntegrationEngine) (name : String) :
    List Message × IntegrationEngine :=
  if name ≠ source then
    let r := acc.2.send_message source name payload now
    (acc.1 ++ [r.1], r.2)
  else acc

/-- `IntegrationEngine.broadcast`: iterates the registered service names in
registry (insertion) order, sending to every name other than `source`.
The Python loop iterates `self.registered_services` directly; since
`send_message` never adds or removes keys, iterating the initial key list
is the same iteration. -/
def IntegrationEngine.broadcast (e : IntegrationEngine) (source : String)
    (payload : StrDict) (now : Nat) : List Message × IntegrationEngine :=
  (e.registered_services.map Prod.fst).foldl (broadcastStep source payload now) ([], e)

/-- `IntegrationEngine.get_service_status`. -/
def IntegrationEngine.get_service_status (e : IntegrationEngine) (name : String) :
    Option Service :=
  dictGet name e.registered_services

/-- Per-service summary inside the integration report. -/
structure ServiceSummary where
  type : String
  status : String
  messages : Nat
deriving DecidableEq

/-- The record returned by `IntegrationEngine.get_integration_report`. -/
structure IntegrationReport where
  version : String
  uptime_seconds : Nat
  services_registered : Nat
  messages_processed : Nat
  pending_messages : Nat
  services : List (String × ServiceSummary)
deriving DecidableEq

/-- `IntegrationEngine.get_integration_report`
(`src/integration_engine.py` lines 85-98). -/
def IntegrationEngine.get_integration_report (e : IntegrationEngine) (now : Nat) :
    IntegrationReport :=
  { version := "2.0.0"
    uptime_seconds := now - e.start_time
    services_registered := e.registered_services.length
    messages_processed := e.processed_messages.length
    pending_messages := (e.message_queue.filter (fun m => m.status == "pending")).length
    services := e.registered_services.map
      (fun p => (p.1, { type := p.2.type, status := p.2.status, messages := p.2.message_count })) }

/-- Engine states reachable through the public API, starting from
`__init__` and closed under `register_service`, `send_message` and
`broadcast` (timestamps arbitrary). -/
inductive Reachable : IntegrationEngine → Prop
  | init (now : Nat) : Reachable (IntegrationEngine.init now)
  | register (e : IntegrationEngine) (name service_type endpoint : String)
      (config : Option StrDict) (now : Nat) :
      Reachable e → Reachable (e.register_service name service_type endpoint config now)
  | send (e : IntegrationEngine) (source target : String) (payload : StrDict) (now : Nat) :
      Reachable e → Reachable (e.send_message source target payload now).2
  | bcast (e : IntegrationEngine) (source : String) (payload : StrDict) (now : Nat) :
      Reachable e → Reachable (e.broadcast source payload now).2

/-- A health issue record, as built by `SelfHealing.check_health`
(`src/self_healing.py` lines 42-46). -/
structure HealthIssue where
  service : String
  issue : String
  severity : String
deriving DecidableEq

/-- A repair action record, as built by `SelfHealing.auto_repair`
(`src/self_healing.py` lines 68-72). -/
structure RepairAction where
  service : String
  action : String
  timestamp : Nat
deriving DecidableEq

/-- State of `SelfHealing` (`src/self_healing.py` lines 28-32). -/
structure SelfHealing where
  check_interval : Nat
  health_status : String
  fault_log : List HealthIssue
  repairs : List RepairAction
  start_time : Nat
deriving DecidableEq

/-- `SelfHealing.__init__` (default `check_interval` 5). -/
def SelfHealing.init (check_interval now : Nat) : SelfHealing :=
  { check_interval := check_interval
    health_status := "healthy"
    fault_log := []
    repairs := []
    start_time := now }

/-- The record returned by `SelfHealing.check_health`. -/
structure HealthReport where
  status : String
  issues : List HealthIssue
  services_checked : Nat
  timestamp : Nat
deriving DecidableEq

/-- One iteration of the `check_health` loop body: the body only reads the
service record, appending an issue when its status is not `active`; the
record itself is passed through to the post-loop services state. -/
def checkHealthStep (acc : List HealthIssue × List (String × Service))
    (p : String × Service) : List HealthIssue × List (String × Service) :=
  if p.2.status ≠ "active" then
    (acc.1 ++ [{ service := p.1, issue := "inactive", severity := "warning" }], acc.2 ++ [p])
  else
    (acc.1, acc.2 ++ [p])

/-- `SelfHealing.check_health` (`src/self_healing.py` lines 34-59): collect
one issue per non-active service, flip the monitor to `degraded` and extend
the fault log when any issue was found, else flip to `healthy`.  Returns
the report, the updated monitor, and the services dict as left by the loop
(the loop mutates nothing, which claim C7 makes precise). -/
def SelfHealing.check_health (h : SelfHealing) (services : List (String × Service))
    (now : Nat) : HealthReport × SelfHealing × List (String × Service) :=
  let scan := services.foldl checkHealthStep ([], [])
  let h1 :=
    if scan.1 ≠ [] then
      { h with health_status := "degraded", fault_log := h.fault_log ++ scan.1 }
    else
      { h with health_status := "healthy" }
  ({ status := h1.health_status
     issues := scan.1
     services_checked := services.length
     timestamp := now }, h1, scan.2)

/-- One iteration of the `auto_repair` loop body: a non-active service is
forced back to `active` and a `reactivated` repair action is recorded. -/
def autoRepairStep (now : Nat) (acc : List RepairAction × List (String × Service))
    (p : String × Service) : List RepairAction × List (String × Service) :=
  if p.2.status ≠ "active" then
    (acc.1 ++ [{ service := p.1, action := "reactivated", timestamp := now }],
     acc.2 ++ [(p.1, { p.2 with status := "active" })])
  else
    (acc.1, acc.2 ++ [p])

/-- `SelfHealing.auto_repair` (`src/self_healing.py` lines 61-79): sweep
the services, reactivating every non-active one; extend the repair log;
then, if no non-active service remains (re-checking the mutated dict),
set the monitor status to `healthy`.  Returns the repair actions, the
updated monitor and the mutated services dict. -/
def SelfHealing.auto_repair (h : SelfHealing) (services : List (String × Service))
    (now : Nat) : List RepairAction × SelfHealing × List (String × Service) :=
  let sweep := services.foldl (autoRepairStep now) ([], [])
  let h1 := { h with repairs := h.repairs ++ sweep.1 }
  let h2 :=
    if (sweep.2.filter (fun p => p.2.status != "active")) = [] then
      { h1 with health_status := "healthy" }
    else
      h1
  (sweep.1, h2, sweep.2)

/-- The record returned by `SelfHealing.get_report`. -/
structure HealthSummaryReport where
  version : String
  status : String
  uptime_seconds : Nat
  faults_detected : Nat
  repairs_executed : Nat
deriving DecidableEq

/-- `SelfHealing.get_report` (`src/self_healing.py` lines 81-90). -/
def SelfHealing.get_report (h : SelfHealing) (now : Nat) : HealthSummaryReport :=
  { version := "2.0.0"
    status := h.health_status
    uptime_seconds := now - h.start_time
    faults_detected := h.fault_log.length
    repairs_executed := h.repairs.length }

/-- A task submitted to `QuantumAICore.process`: a dict with optional
keys `type`, `data` and `parameters` (`task.get` with defaults). -/
structure ProcTask where
  type : Option String
  data : Option StrDict
  parameters : Option StrDict
deriving DecidableEq

/-- A processing result record, as built by `QuantumAICore.process`
(`src/quantum_ai_core.py` lines 56-73).  The payload of the `output` key
is abstracted to a type parameter `Out`: the four sub-computations
(`_quantum_optimize`, `_ml_inference`, `_hybrid_compute`, `health_check`)
involve wall-clock floats and `random.gauss`, which a shallow embedding
treats as opaque values supplied by the caller; no claim depends on their
numeric content, only on which branch runs and what gets logged. -/
structure ProcResult (Out : Type) where
  task_type : String
  status : String
  timestamp : Nat
  output : Option Out
  error : Option String
  duration : Nat
deriving DecidableEq

/-- State of `QuantumAICore` (`src/quantum_ai_core.py` lines 30-38). -/
structure QuantumAICore (Out : Type) where
  processing_log : List (ProcResult Out)
  total_operations : Nat
deriving DecidableEq

/-- `QuantumAICore.__init__` (log empty, zero operations). -/
def QuantumAICore.init (Out : Type) : QuantumAICore Out :=
  { processing_log := [], total_operations := 0 }

/-- `QuantumAICore.process` (`src/quantum_ai_core.py` lines 39-75):
dispatch on `task.get('type', 'unknown')`; known types attach an output,
an unknown type marks the result `error` with a message naming the type;
every call appends the result to `processing_log` and increments
`total_operations`.  The stochastic sub-computations are passed in as
`quantum_optimize`, `ml_inference`, `hybrid_compute` (functions of the
task's data and parameters) and `health_check_out`; `dur` stands for the
measured wall-clock duration. -/
def QuantumAICore.process {Out : Type}
    (quantum_optimize ml_inference hybrid_compute : StrDict → StrDict → Out)
    (health_check_out : Out) (core : QuantumAICore Out) (task : ProcTask)
    (now dur : Nat) : ProcResult Out × QuantumAICore Out :=
  let task_type := task.type.getD "unknown"
  let data := task.data.getD []
  let params := task.parameters.getD []
  let base : ProcResult Out :=
    { task_type := task_type
      status := "completed"
      timestamp := now
      output := none
      error := none
      duration := dur }
  let result :=
    if task_type = "quantum_optimize" then
      { base with output := some (quantum_optimize data params) }
    else if task_type = "ml_inference" then
      { base with output := some (ml_inference data params) }
    else if task_type = "hybrid_compute" then
      { base with output := some (hybrid_compute data params) }
    else if task_type = "health_check" then
      { base with output := some health_check_out }
    else
      { base with
          status := "error"
          error := some ("Unknown task type: " ++ task_type) }
  (result,
   { core with
      processing_log := core.processing_log ++ [result]
      total_operations := core.total_operations + 1 })

/-! ### Association-list dictionary lemmas -/

theorem dictGet_dictInsert_self {β : Type} (k : String) (v : β) (l : List (String × β)) :
    dictGet k (dictInsert k v l) = some v := by
  induction l with
  | nil => simp [dictGet, dictInsert]
  | cons p rest ih =>
    by_cases h : p.1 = k
    · simp [dictGet, dictInsert, h]
    · simp [dictGet, dictInsert, h, ih]

theorem dictGet_dictInsert_ne {β : Type} {k k' : String} (v : β) (l : List (String × β))
    (hne : k' ≠ k) : dictGet k' (dictInsert k v l) = dictGet k' l := by
  induction l with
  | nil => simp [dictGet, dictInsert, Ne.symm hne]
  | cons p rest ih =>
    by_cases h : p.1 = k
    · subst h
      simp [dictGet, dictInsert, Ne.symm hne]
    · by_cases h' : p.1 = k'
      · simp [dictGet, dictInsert, h, h', hne]
      · simp [dictGet, dictInsert, h, h', ih]

theorem length_dictInsert_of_mem {β : Type} {k : String} (v : β) {l : List (String × β)}
    (hmem : k ∈ l.map Prod.fst) : (dictInsert k v l).length = l.length := by
  induction l with
  | nil => simp at hmem
  | cons p rest ih =>
    by_cases h : p.1 = k
    · simp [dictInsert, h]
    · simp only [List.map_cons, List.mem_cons] at hmem
      rcases hmem with hmem | hmem
    
      · exact absurd hmem.symm h
      · simp [dictInsert, h, ih hmem]

theorem dictGet_dictUpdate_self {β : Type} (k : String) (f : β → β) (l : List (String × β)) :
    dictGet k (dictUpdate k f l) = (dictGet k l).map f := by
  induction l with
  | nil => simp [dictGet, dictUpdate]
  | cons p rest ih =>
    by_cases h : p.1 = k
    · simp [dictGet, dictUpdate, h]
    · simp [dictGet, dictUpdate, h, ih]

theorem dictGet_dictUpdate_ne {β : Type} {k k' : String} (f : β → β) (l : List (String × β))
    (hne : k' ≠ k) : dictGet k' (dictUpdate k f l) = dictGet k' l := by
  induction l with
  | nil => simp [dictGet, dictUpdate]
  | cons p rest ih =>
    by_cases h : p.1 = k
    · subst h
      simp [dictGet, dictUpdate, Ne.symm hne]
    · by_cases h' : p.1 = k'
      · simp [dictGet, dictUpdate, h, h', hne]
      · simp [dictGet, dictUpdate, h, h', ih]

theorem keys_dictUpdate {β : Type} (k : String) (f : β → β) (l : List (String × β)) :
    (dictUpdate k f l).map Prod.fst = l.map Prod.fst := by
  induction l with
  | nil => simp [dictUpdate]
  | cons p rest ih =>
    by_cases h : p.1 = k
    · simp [dictUpdate, h]
    · simp [dictUpdate, h, ih]

theorem dictGet_isSome_of_mem {β : Type} {k : String} {l : List (String × β)}
    (hmem : k ∈ l.map Prod.fst) : (dictGet k l).isSome := by
  induction l with
  | nil => simp at hmem
  | cons p rest ih =>
    by_cases h : p.1 = k
    · simp [dictGet, h]
    · simp only [List.map_cons, List.mem_cons] at hmem
      rcases hmem with hmem | hmem
      · exact absurd hmem.symm h
      · simp [dictGet, h, ih hmem]

theorem dictGet_eq_none_of_not_mem {β : Type} {k : String} {l : List (String × β)}
    (hmem : k ∉ l.map Prod.fst) : dictGet k l = none := by
  induction l with
  | nil => simp [dictGet]
  | cons p rest ih =>
    simp only [List.map_cons, List.mem_cons, not_or] at hmem
    simp [dictGet, Ne.symm hmem.1, ih hmem.2]

/-! ### Basic facts about `send_message` -/

theorem send_message_of_some (e : IntegrationEngine) (source target : String)
    (payload : StrDict) (now : Nat) (s : Service)
    (h : dictGet target e.registered_services = some s) :
    (e.send_message source target payload now).1 =
      { source := source, target := target, payload := payload, timestamp := now,
        status := "delivered", error := none } ∧
    (e.send_message source target payload now).2.registered_services =
      dictUpdate target (fun s => { s with message_count := s.message_count + 1 })
        e.registered_services := by
  constructor <;> simp [IntegrationEngine.send_message, h]

theorem send_message_of_none (e : IntegrationEngine) (source target : String)
    (payload : StrDict) (now : Nat)
    (h : dictGet target e.registered_services = none) :
    (e.send_message source target payload now).1 =
      { source := source, target := target, payload := payload, timestamp := now,
        status := "error", error := some ("Service " ++ target ++ " not registered") } ∧
    (e.send_message source target payload now).2.registered_services =
      e.registered_services := by
  constructor <;> simp [IntegrationEngine.send_message, h]

theorem send_message_queue_eq (e : IntegrationEngine) (source target : String)
    (payload : StrDict) (now : Nat) :
    (e.send_message source target payload now).2.message_queue =
      e.message_queue ++ [(e.send_message source target payload now).1] ∧
    (e.send_message source target payload now).2.processed_messages =
      e.processed_messages ++ [(e.send_message source target payload now).1] := by
  constructor <;> simp [IntegrationEngine.send_message]

/-- The message returned by `send_message` is resolved: `delivered` or
`error`, never `pending`. -/
theorem send_message_resolved (e : IntegrationEngine) (source target : String)
    (payload : StrDict) (now : Nat) :
    (e.send_message source target payload now).1.status = "delivered" ∨
    (e.send_message source target payload now).1.status = "error" := by
  cases h : dictGet target e.registered_services with
  | none => exact Or.inr (congrArg Message.status (send_message_of_none e source target payload now h).1)
  | some s => exact Or.inl (congrArg Message.status (send_message_of_some e source target payload now s h).1)

theorem send_message_keys (e : IntegrationEngine) (source target : String)
    (payload : StrDict) (now : Nat) :
    (e.send_message source target payload now).2.registered_services.map Prod.fst =
      e.registered_services.map Prod.fst := by
  cases h : dictGet target e.registered_services with
  | none => rw [(send_message_of_none e source target payload now h).2]
  | some s =>
    rw [(send_message_of_some e source target payload now s h).2, keys_dictUpdate]

/-! ### The engine invariant behind claims C6 and C10: every logged message
is resolved and both message logs coincide -/

/-- Invariant of reachable engine states: every message in the queue is
resolved (`delivered` or `error`), and `message_queue` and
`processed_messages` hold the same sequence. -/
def EngineInv (e : IntegrationEngine) : Prop :=
  (∀ m ∈ e.message_queue, m.status = "delivered" ∨ m.status = "error") ∧
  e.message_queue = e.processed_messages

theorem engineInv_init (now : Nat) : EngineInv (IntegrationEngine.init now) := by
  constructor
  · intro m hm
    simp [IntegrationEngine.init] at hm
  · rfl

theorem engineInv_register (e : IntegrationEngine) (name service_type endpoint : String)
    (config : Option StrDict) (now : Nat) (h : EngineInv e) :
    EngineInv (e.register_service name service_type endpoint config now) := by
  exact h

theorem engineInv_send (e : IntegrationEngine) (source target : String)
    (payload : StrDict) (now : Nat) (h : EngineInv e) :
    EngineInv (e.send_message source target payload now).2 := by
  obtain ⟨hres, heq⟩ := h
  obtain ⟨hq, hp⟩ := send_message_queue_eq e source target payload now
  constructor
  · intro m hm
    rw [hq, List.mem_append] at hm
    rcases hm with hm | hm
    · exact hres m hm
    · rw [List.mem_singleton] at hm
      subst hm
      exact send_message_resolved e source target payload now
  · rw [hq, hp, heq]

theorem engineInv_broadcastStep (source : String) (payload : StrDict) (now : Nat)
    (acc : List Message × IntegrationEngine) (name : String) (h : EngineInv acc.2) :
    EngineInv (broadcastStep source payload now acc name).2 := by
  unfold broadcastStep
  by_cases hn : name ≠ source
  · rw [if_pos hn]
    exact engineInv_send acc.2 source name payload now h
  · rw [if_neg hn]
    exact h

theorem engineInv_foldl (source : String) (payload : StrDict) (now : Nat)
    (names : List String) :
    ∀ acc : List Message × IntegrationEngine, EngineInv acc.2 →
      EngineInv (names.foldl (broadcastStep source payload now) acc).2 := by
  induction names with
  | nil => intro acc h; exact h
  | cons n rest ih =>
    intro acc h
    exact ih _ (engineInv_broadcastStep source payload now acc n h)

theorem engineInv_broadcast (e : IntegrationEngine) (source : String)
    (payload : StrDict) (now : Nat) (h : EngineInv e) :
    EngineInv (e.broadcast source payload now).2 :=
  engineInv_foldl source payload now (e.registered_services.map Prod.fst) ([], e) h

/-- Every reachable engine state satisfies the invariant. -/
theorem reachable_engineInv (e : IntegrationEngine) (h : Reachable e) : EngineInv e := by
  induction h with
  | init now => exact engineInv_init now
  | register e name st ep cfg now _ ih => exact engineInv_register e name st ep cfg now ih
  | send e src tgt payload now _ ih => exact engineInv_send e src tgt payload now ih
  | bcast e src payload now _ ih => exact engineInv_broadcast e src payload now ih

/-- Claim C1: for every engine state and every source, target and payload,
`send_message` to a registered target returns a `delivered` message and
increments exactly that target's `message_count` by 1, leaving every other
service's record unchanged; to an unregistered target it returns an
`error` message whose error detail names the target, and leaves the whole
registry unchanged. -/
theorem C1_send_message_delivery (e : IntegrationEngine) (source target : String)
    (payload : StrDict) (now : Nat) :
    (∀ s : Service, dictGet target e.registered_services = some s →
      (e.send_message source target payload now).1.status = "delivered" ∧
      dictGet target (e.send_message source target payload now).2.registered_services =
        some { s with message_count := s.message_count + 1 } ∧
      ∀ k : String, k ≠ target →
        dictGet k (e.send_message source target payload now).2.registered_services =
          dictGet k e.registered_services) ∧
    (dictGet target e.registered_services = none →
      (e.send_message source target payload now).1.status = "error" ∧
      (e.send_message source target payload now).1.error =
        some ("Service " ++ target ++ " not registered") ∧
      (e.send_message source target payload now).2.registered_services =
        e.registered_services) := by
  constructor
  · intro s hs
    obtain ⟨hm, hr⟩ := send_message_of_some e source target payload now s hs
    refine ⟨by rw [hm], ?_, ?_⟩
    · rw [hr, dictGet_dictUpdate_self, hs]
      rfl
    · intro k hk
      rw [hr, dictGet_dictUpdate_ne _ _ hk]
  · intro hn
    obtain ⟨hm, hr⟩ := send_message_of_none e source target payload now hn
    exact ⟨by rw [hm], by rw [hm], hr⟩

/-- Concrete engine used by witnesses: service `alpha` registered at an
otherwise fresh engine. -/
def wEngine : IntegrationEngine :=
  (IntegrationEngine.init 0).register_service "alpha" "svc" "ep" none 1

/-- Witness for C1 at a concrete engine: sending to the registered
`alpha` is delivered and bumps its counter; sending to the unregistered
`beta` errors with a detail naming `beta` and changes no record. -/
theorem C1_send_message_delivery_witness :
    ((wEngine.send_message "x" "alpha" ([] : StrDict) 2).1.status = "delivered" ∧
      dictGet "alpha" (wEngine.send_message "x" "alpha" ([] : StrDict) 2).2.registered_services =
        some { type := "svc", endpoint := "ep", config := [], status := "active",
               registered_at := 1, message_count := 1 }) ∧
    ((wEngine.send_message "x" "beta" ([] : StrDict) 2).1.status = "error" ∧
      (wEngine.send_message "x" "beta" ([] : StrDict) 2).1.error =
        some "Service beta not registered") := by
  constructor
  · obtain ⟨h1, h2, _⟩ :=
      (C1_send_message_delivery wEngine "x" "alpha" ([] : StrDict) 2).1
        { type := "svc", endpoint := "ep", config := [], status := "active",
          registered_at := 1, message_count := 0 } (by decide)
    exact ⟨h1, h2⟩
  · obtain ⟨h1, h2, _⟩ :=
      (C1_send_message_delivery wEngine "x" "beta" ([] : StrDict) 2).2 (by decide)
    exact ⟨h1, h2⟩

/-- Claim C6: after every `send_message` call the returned message, and
every message stored in the queue and processed log of a reachable engine
state, has status `delivered` or `error` — never `pending` — and the
`pending_messages` count of `get_integration_report` is 0. -/
theorem C6_no_pending_messages (e : IntegrationEngine) (h : Reachable e) :
    (∀ (source target : String) (payload : StrDict) (now : Nat),
      (e.send_message source target payload now).1.status = "delivered" ∨
      (e.send_message source target payload now).1.status = "error") ∧
    (∀ m ∈ e.message_queue, m.status = "delivered" ∨ m.status = "error") ∧
    (∀ m ∈ e.processed_messages, m.status = "delivered" ∨ m.status = "error") ∧
    (∀ now : Nat, (e.get_integration_report now).pending_messages = 0) := by
  obtain ⟨hres, heq⟩ := reachable_engineInv e h
  refine ⟨fun s t p n => send_message_resolved e s t p n, hres, ?_, ?_⟩
  · rw [← heq]
    exact hres
  · intro now
    simp only [IntegrationEngine.get_integration_report]
    rw [List.length_eq_zero, List.filter_eq_nil_iff]
    intro m hm
    rcases hres m hm with h1 | h1 <;> rw [h1] <;> decide

/-- Concrete reachable engine used by witnesses: `wEngine` after one
delivered message to `alpha`. -/
def wEngine2 : IntegrationEngine :=
  (wEngine.send_message "x" "alpha" ([] : StrDict) 2).2

/-- Reachability of the concrete witness engines. -/
theorem wEngine2_reachable : Reachable wEngine2 :=
  Reachable.send wEngine "x" "alpha" ([] : StrDict) 2
    (Reachable.register (IntegrationEngine.init 0) "alpha" "svc" "ep" none 1 (Reachable.init 0))

/-- Witness for C6 at a concrete reachable state with one processed
message. -/
theorem C6_no_pending_messages_witness :
    (wEngine2.get_integration_report 5).pending_messages = 0 :=
  (C6_no_pending_messages wEngine2 wEngine2_reachable).2.2.2 5

/-- Claim C10: in every reachable engine state, `message_queue` and
`processed_messages` hold the same sequence of messages, and in
particular have equal length. -/
theorem C10_queue_eq_processed (e : IntegrationEngine) (h : Reachable e) :
    e.message_queue = e.processed_messages ∧
    e.message_queue.length = e.processed_messages.length := by
  obtain ⟨_, heq⟩ := reachable_engineInv e h
  exact ⟨heq, by rw [heq]⟩

/-- Concrete reachable engine exercising `broadcast`: `wEngine2` after a
broadcast from `alpha` (no other services, so no sends) and one more
registration plus a broadcast from `x`. -/
def wEngine3 : IntegrationEngine :=
  ((wEngine2.register_service "beta" "svc2" "" none 3).broadcast "x" ([] : StrDict) 4).2

theorem wEngine3_reachable : Reachable wEngine3 :=
  Reachable.bcast (wEngine2.register_service "beta" "svc2" "" none 3) "x" ([] : StrDict) 4
    (Reachable.register wEngine2 "beta" "svc2" "" none 3 wEngine2_reachable)

/-- Witness for C10 at a concrete reachable state whose logs hold three
messages (one direct send, two broadcast deliveries). -/
theorem C10_queue_eq_processed_witness :
    wEngine3.message_queue = wEngine3.processed_messages :=
  (C10_queue_eq_processed wEngine3 wEngine3_reachable).1

/-! ### Closed forms for the `SelfHealing` loops -/

/-- The issue list produced by the `check_health` loop: one `inactive` /
`warning` issue per non-active service, in registry order. -/
def inactiveIssues (services : List (String × Service)) : List HealthIssue :=
  (services.filter (fun p => p.2.status != "active")).map
    (fun p => { service := p.1, issue := "inactive", severity := "warning" })

theorem checkHealthStep_foldl (services : List (String × Service)) :
    ∀ (is0 : List HealthIssue) (acc0 : List (String × Service)),
      services.foldl checkHealthStep (is0, acc0) =
        (is0 ++ inactiveIssues services, acc0 ++ services) := by
  induction services with
  | nil =>
    intro is0 acc0
    simp [inactiveIssues]
  | cons p rest ih =>
    intro is0 acc0
    rw [List.foldl_cons]
    by_cases hp : p.2.status = "active"
    · have hstep : checkHealthStep (is0, acc0) p = (is0, acc0 ++ [p]) := by
        simp [checkHealthStep, hp]
      rw [hstep, ih]
      simp [inactiveIssues, List.filter_cons, hp]
    · have hstep : checkHealthStep (is0, acc0) p =
          (is0 ++ [{ service := p.1, issue := "inactive", severity := "warning" }],
           acc0 ++ [p]) := by
        simp [checkHealthStep, hp]
      rw [hstep, ih]
      simp [inactiveIssues, List.filter_cons, hp]

theorem check_health_components (h : SelfHealing) (services : List (String × Service))
    (now : Nat) :
    (h.check_health services now).1.issues = inactiveIssues services ∧
    (h.check_health services now).1.status =
      (if inactiveIssues services = [] then "healthy" else "degraded") ∧
    (h.check_health services now).1.services_checked = services.length ∧
    (h.check_health services now).2.1 =
      (if inactiveIssues services = [] then { h with health_status := "healthy" }
       else { h with health_status := "degraded",
                     fault_log := h.fault_log ++ inactiveIssues services }) ∧
    (h.check_health services now).2.2 = services := by
  unfold SelfHealing.check_health
  rw [checkHealthStep_foldl services [] []]
  by_cases hnil : inactiveIssues services = []
  · simp [hnil]
  · simp [hnil]

/-- The service transformation performed by the `auto_repair` sweep:
force the status to `active` (a no-op on already-active records). -/
def repairedService (s : Service) : Service :=
  if s.status ≠ "active" then { s with status := "active" } else s

theorem repairedService_eq (s : Service) :
    repairedService s = { s with status := "active" } := by
  unfold repairedService
  by_cases hp : s.status = "active"
  · rw [if_neg (by simp [hp])]
    cases s
    simp_all
  · rw [if_pos hp]

theorem repairedService_status (s : Service) : (repairedService s).status = "active" := by
  rw [repairedService_eq]

/-- The repair-action list produced by the `auto_repair` sweep. -/
def reactivations (services : List (String × Service)) (now : Nat) : List RepairAction :=
  (services.filter (fun p => p.2.status != "active")).map
    (fun p => { service := p.1, action := "reactivated", timestamp := now })

theorem autoRepairStep_foldl (now : Nat) (services : List (String × Service)) :
    ∀ (rs0 : List RepairAction) (acc0 : List (String × Service)),
      services.foldl (autoRepairStep now) (rs0, acc0) =
        (rs0 ++ reactivations services now,
         acc0 ++ services.map (fun p => (p.1, repairedService p.2))) := by
  induction services with
  | nil =>
    intro rs0 acc0
    simp [reactivations]
  | cons p rest ih =>
    intro rs0 acc0
    rw [List.foldl_cons]
    by_cases hp : p.2.status = "active"
    · have hstep : autoRepairStep now (rs0, acc0) p = (rs0, acc0 ++ [p]) := by
        simp [autoRepairStep, hp]
      rw [hstep, ih]
      simp [reactivations, List.filter_cons, hp, repairedService, Prod.ext_iff]
    · have hstep : autoRepairStep now (rs0, acc0) p =
          (rs0 ++ [{ service := p.1, action := "reactivated", timestamp := now }],
           acc0 ++ [(p.1, { p.2 with status := "active" })]) := by
        simp [autoRepairStep, hp]
      rw [hstep, ih]
      simp [reactivations, List.filter_cons, hp, repairedService]

theorem auto_repair_components (h : SelfHealing) (services : List (String × Service))
    (now : Nat) :
    (h.auto_repair services now).1 = reactivations services now ∧
    (h.auto_repair services now).2.2 =
      services.map (fun p => (p.1, repairedService p.2)) ∧
    (h.auto_repair services now).2.1 =
      { h with health_status := "healthy",
               repairs := h.repairs ++ reactivations services now } := by
  unfold SelfHealing.auto_repair
  rw [autoRepairStep_foldl now services [] []]
  have hfil : ((services.map (fun p => (p.1, repairedService p.2))).filter
      (fun p => p.2.status != "active")) = [] := by
    rw [List.filter_eq_nil_iff]
    intro q hq
    rw [List.mem_map] at hq
    obtain ⟨p, _, hpq⟩ := hq
    subst hpq
    simp [repairedService_status]
  simp [hfil]

theorem inactiveIssues_eq_nil_iff (services : List (String × Service)) :
    inactiveIssues services = [] ↔ ∀ p ∈ services, p.2.status = "active" := by
  unfold inactiveIssues
  rw [List.map_eq_nil_iff, List.filter_eq_nil_iff]
  constructor
  · intro hf p hp
    have := hf p hp
    simpa using this
  · intro hf p hp
    simp [hf p hp]

/-- Claim C3: `check_health` over an all-active registry reports `healthy`
with no issues; over a registry with at least one non-active service it
reports `degraded` with exactly one `inactive`/`warning` issue per
non-active service (in registry order), all of which are appended to the
fault log. -/
theorem C3_check_health_report (h : SelfHealing) (services : List (String × Service))
    (now : Nat) :
    ((∀ p ∈ services, p.2.status = "active") →
      (h.check_health services now).1.status = "healthy" ∧
      (h.check_health services now).1.issues = [] ∧
      ((h.check_health services now).2.1).fault_log = h.fault_log) ∧
    ((∃ p ∈ services, p.2.status ≠ "active") →
      (h.check_health services now).1.status = "degraded" ∧
      (h.check_health services now).1.issues = inactiveIssues services ∧
      inactiveIssues services ≠ [] ∧
      ((h.check_health services now).2.1).fault_log =
        h.fault_log ++ inactiveIssues services) := by
  obtain ⟨hiss, hstat, _, hmon, _⟩ := check_health_components h services now
  constructor
  · intro hall
    have hnil : inactiveIssues services = [] := (inactiveIssues_eq_nil_iff services).mpr hall
    rw [if_pos hnil] at hstat hmon
    exact ⟨hstat, by rw [hiss, hnil], by rw [hmon]⟩
  · rintro ⟨p, hp, hpstat⟩
    have hnil : inactiveIssues services ≠ [] := by
      intro hc
      exact hpstat ((inactiveIssues_eq_nil_iff services).mp hc p hp)
    rw [if_neg hnil] at hstat hmon
    exact ⟨hstat, hiss, hnil, by rw [hmon]⟩

/-- Witness for C3: a one-service all-active registry checks healthy; a
registry with inactive service `b` checks degraded with exactly the issue
for `b` appended to the fault log. -/
theorem C3_check_health_report_witness :
    ((SelfHealing.init 5 0).check_health
        [("a", { type := "t", endpoint := "", config := [], status := "active",
                 registered_at := 0, message_count := 0 })] 1).1.status = "healthy" ∧
    ((SelfHealing.init 5 0).check_health
        [("a", { type := "t", endpoint := "", config := [], status := "active",
                 registered_at := 0, message_count := 0 }),
         ("b", { type := "t", endpoint := "", config := [], status := "inactive",
                 registered_at := 0, message_count := 0 })] 1).1.status = "degraded" := by
  constructor
  · exact ((C3_check_health_report (SelfHealing.init 5 0)
      [("a", { type := "t", endpoint := "", config := [], status := "active",
               registered_at := 0, message_count := 0 })] 1).1 (by decide)).1
  · exact ((C3_check_health_report (SelfHealing.init 5 0)
      [("a", { type := "t", endpoint := "", config := [], status := "active",
               registered_at := 0, message_count := 0 }),
       ("b", { type := "t", endpoint := "", config := [], status := "inactive",
               registered_at := 0, message_count := 0 })] 1).2 (by decide)).1

/-- Claim C2: `auto_repair` forces every service's status to `active`
(leaving all other fields alone), returns exactly one `reactivated`
repair action per previously non-active service, and a `check_health`
call immediately afterwards on the same (mutated) registry reports
`healthy` with an empty issue list. -/
theorem C2_auto_repair_then_healthy (h : SelfHealing) (services : List (String × Service))
    (now now2 : Nat) :
    (h.auto_repair services now).2.2 =
      services.map (fun p => (p.1, { p.2 with status := "active" })) ∧
    (h.auto_repair services now).1 = reactivations services now ∧
    (((h.auto_repair services now).2.1).check_health
        (h.auto_repair services now).2.2 now2).1.status = "healthy" ∧
    (((h.auto_repair services now).2.1).check_health
        (h.auto_repair services now).2.2 now2).1.issues = [] := by
  obtain ⟨hreps, hserv, hmon⟩ := auto_repair_components h services now
  have hserv' : (h.auto_repair services now).2.2 =
      services.map (fun p => (p.1, { p.2 with status := "active" })) := by
    rw [hserv]
    exact List.map_congr_left (fun p _ => by rw [repairedService_eq])
  have hall : ∀ p ∈ (h.auto_repair services now).2.2, p.2.status = "active" := by
    intro p hp
    rw [hserv] at hp
    rw [List.mem_map] at hp
    obtain ⟨q, _, hq⟩ := hp
    subst hq
    exact repairedService_status q.2
  have hnil : inactiveIssues (h.auto_repair services now).2.2 = [] :=
    (inactiveIssues_eq_nil_iff _).mpr hall
  obtain ⟨hiss, hstat, _, _, _⟩ :=
    check_health_components (h.auto_repair services now).2.1
      (h.auto_repair services now).2.2 now2
  refine ⟨hserv', hreps, ?_, ?_⟩
  · rw [hstat, if_pos hnil]
  · rw [hiss, hnil]

/-- Claim C7: `check_health` never mutates any service record — the
services dict it leaves behind is exactly the one passed in — and of the
monitor's own state it can only change `health_status` and `fault_log`:
`repairs`, `check_interval` and `start_time` are untouched. -/
theorem C7_check_health_read_only (h : SelfHealing) (services : List (String × Service))
    (now : Nat) :
    (h.check_health services now).2.2 = services ∧
    ((h.check_health services now).2.1).repairs = h.repairs ∧
    ((h.check_health services now).2.1).check_interval = h.check_interval ∧
    ((h.check_health services now).2.1).start_time = h.start_time := by
  obtain ⟨_, _, _, hmon, hserv⟩ := check_health_components h services now
  by_cases hnil : inactiveIssues services = []
  · rw [if_pos hnil] at hmon
    exact ⟨hserv, by rw [hmon], by rw [hmon], by rw [hmon]⟩
  · rw [if_neg hnil] at hmon
    exact ⟨hserv, by rw [hmon], by rw [hmon], by rw [hmon]⟩

/-- Claim C9: `auto_repair` unconditionally leaves the monitor `healthy`,
whatever the input registry and previous monitor state: after its sweep
no non-active service remains, so the guarded transition always fires. -/
theorem C9_auto_repair_always_healthy (h : SelfHealing) (services : List (String × Service))
    (now : Nat) :
    ((h.auto_repair services now).2.1).health_status = "healthy" := by
  obtain ⟨_, _, hmon⟩ := auto_repair_components h services now
  rw [hmon]

/-- Claim C4: re-registering an already-registered name creates no
duplicate entry (registry size unchanged), overwrites the record's type,
endpoint and config with the new arguments, sets status `active` and
resets `message_count` to 0, leaving every other name's record unchanged.
No error path exists: `register_service` is total. -/
theorem C4_reregistration_overwrites (e : IntegrationEngine)
    (name service_type endpoint : String) (config : Option StrDict) (now : Nat)
    (h : name ∈ e.registered_services.map Prod.fst) :
    (e.register_service name service_type endpoint config now).registered_services.length =
      e.registered_services.length ∧
    dictGet name
        (e.register_service name service_type endpoint config now).registered_services =
      some { type := service_type, endpoint := endpoint, config := config.getD [],
             status := "active", registered_at := now, message_count := 0 } ∧
    ∀ k : String, k ≠ name →
      dictGet k (e.register_service name service_type endpoint config now).registered_services =
        dictGet k e.registered_services := by
  refine ⟨length_dictInsert_of_mem _ h, dictGet_dictInsert_self _ _ _, ?_⟩
  intro k hk
  exact dictGet_dictInsert_ne _ _ hk

/-- Witness for C4: re-registering `alpha` over `wEngine` keeps one entry
and overwrites the record. -/
theorem C4_reregistration_overwrites_witness :
    (wEngine.register_service "alpha" "svc2" "ep2" (some [("k", "v")]) 7).registered_services.length =
      wEngine.registered_services.length ∧
    dictGet "alpha"
        (wEngine.register_service "alpha" "svc2" "ep2" (some [("k", "v")]) 7).registered_services =
      some { type := "svc2", endpoint := "ep2", config := [("k", "v")],
             status := "active", registered_at := 7, message_count := 0 } := by
  obtain ⟨h1, h2, _⟩ :=
    C4_reregistration_overwrites wEngine "alpha" "svc2" "ep2" (some [("k", "v")]) 7 (by decide)
  exact ⟨h1, h2⟩

/-- Claim C8: `process` appends the result record to the processing log
and increments the operation counter by exactly 1 for every task, and for
a task whose type tag is none of the four known types it returns a result
with status `error` and a message naming the unknown type, without any
exceptional path (the embedding is a total function). -/
theorem C8_process_unknown_task_type {Out : Type}
    (quantum_optimize ml_inference hybrid_compute : StrDict → StrDict → Out)
    (health_check_out : Out) (core : QuantumAICore Out) (task : ProcTask)
    (now dur : Nat) :
    ((QuantumAICore.process quantum_optimize ml_inference hybrid_compute
        health_check_out core task now dur).2.processing_log =
      core.processing_log ++
        [(QuantumAICore.process quantum_optimize ml_inference hybrid_compute
            health_check_out core task now dur).1] ∧
     (QuantumAICore.process quantum_optimize ml_inference hybrid_compute
        health_check_out core task now dur).2.total_operations =
      core.total_operations + 1) ∧
    (task.type.getD "unknown" ∉
        (["quantum_optimize", "ml_inference", "hybrid_compute", "health_check"] :
          List String) →
      (QuantumAICore.process quantum_optimize ml_inference hybrid_compute
          health_check_out core task now dur).1.status = "error" ∧
      (QuantumAICore.process quantum_optimize ml_inference hybrid_compute
          health_check_out core task now dur).1.error =
        some ("Unknown task type: " ++ task.type.getD "unknown")) := by
  constructor
  · constructor <;> simp [QuantumAICore.process]
  · intro h
    simp only [List.mem_cons, List.mem_singleton, not_or] at h
    obtain ⟨h1, h2, h3, h4⟩ := h
    constructor <;> simp [QuantumAICore.process, h1, h2, h3, h4]

/-- Witness for C8: a task of type `bogus` is marked `error` with a
message naming `bogus`, and is still logged and counted. -/
theorem C8_process_unknown_task_type_witness :
    (QuantumAICore.process (fun _ _ => ()) (fun _ _ => ()) (fun _ _ => ()) ()
        (QuantumAICore.init Unit) { type := some "bogus", data := none, parameters := none }
        3 1).1.status = "error" ∧
    (QuantumAICore.process (fun _ _ => ()) (fun _ _ => ()) (fun _ _ => ()) ()
        (QuantumAICore.init Unit) { type := some "bogus", data := none, parameters := none }
        3 1).2.total_operations = 1 := by
  obtain ⟨⟨_, hops⟩, herr⟩ :=
    C8_process_unknown_task_type (fun _ _ => ()) (fun _ _ => ()) (fun _ _ => ()) ()
      (QuantumAICore.init Unit) { type := some "bogus", data := none, parameters := none } 3 1
  exact ⟨(herr (by decide)).1, hops⟩

/-! ### The broadcast fold: accumulator shift and full specification -/

theorem broadcast_foldl_acc (source : String) (payload : StrDict) (now : Nat) :
    ∀ (names : List String) (ms : List Message) (e : IntegrationEngine),
      names.foldl (broadcastStep source payload now) (ms, e) =
        (ms ++ (names.foldl (broadcastStep source payload now) ([], e)).1,
         (names.foldl (broadcastStep source payload now) ([], e)).2) := by
  intro names
  induction names with
  | nil =>
    intro ms e
    simp
  | cons n rest ih =>
    intro ms e
    rw [List.foldl_cons, List.foldl_cons]
    by_cases hn : n ≠ source
    · have h1 : broadcastStep source payload now (ms, e) n =
          (ms ++ [(e.send_message source n payload now).1],
           (e.send_message source n payload now).2) := by
        simp [broadcastStep, hn]
      have h2 : broadcastStep source payload now ([], e) n =
          ([(e.send_message source n payload now).1],
           (e.send_message source n payload now).2) := by
        simp [broadcastStep, hn]
      rw [h1, h2,
        ih (ms ++ [(e.send_message source n payload now).1])
          (e.send_message source n payload now).2,
        ih [(e.send_message source n payload now).1]
          (e.send_message source n payload now).2]
      simp
    · have h1 : broadcastStep source payload now (ms, e) n = (ms, e) := by
        simp [broadcastStep, hn]
      have h2 : broadcastStep source payload now ([], e) n = ([], e) := by
        simp [broadcastStep, hn]
      rw [h1, h2]
      exact ih ms e

theorem broadcast_fold_spec (source : String) (payload : StrDict) (now : Nat) :
    ∀ (names : List String), names.Nodup →
      ∀ e : IntegrationEngine,
        (∀ n ∈ names, (dictGet n e.registered_services).isSome = true) →
        ((names.foldl (broadcastStep source payload now) ([], e)).1.map Message.target =
            names.filter (fun n => n != source)) ∧
        (∀ m ∈ (names.foldl (broadcastStep source payload now) ([], e)).1,
            m.status = "delivered" ∧ m.source = source) ∧
        (∀ k : String, k ∉ names →
            dictGet k
                (names.foldl (broadcastStep source payload now) ([], e)).2.registered_services =
              dictGet k e.registered_services) ∧
        (∀ k ∈ names, k ≠ source →
            dictGet k
                (names.foldl (broadcastStep source payload now) ([], e)).2.registered_services =
              (dictGet k e.registered_services).map
                (fun s => { s with message_count := s.message_count + 1 })) ∧
        (dictGet source
            (names.foldl (broadcastStep source payload now) ([], e)).2.registered_services =
          dictGet source e.registered_services) := by
  intro names
  induction names with
  | nil =>
    intro _ e _
    simp
  | cons n rest ih =>
    intro hnd e hreg
    rw [List.nodup_cons] at hnd
    rw [List.foldl_cons]
    by_cases hn : n ≠ source
    · have hsome : (dictGet n e.registered_services).isSome = true :=
        hreg n (List.mem_cons_self n rest)
      obtain ⟨s, hs⟩ := Option.isSome_iff_exists.mp hsome
      obtain ⟨hm, hr⟩ := send_message_of_some e source n payload now s hs
      have hstep : broadcastStep source payload now ([], e) n =
          ([(e.send_message source n payload now).1],
           (e.send_message source n payload now).2) := by
        simp [broadcastStep, hn]
      rw [hstep,
        broadcast_foldl_acc source payload now rest
          [(e.send_message source n payload now).1]
          (e.send_message source n payload now).2]
      have hreg1 : ∀ k ∈ rest,
          (dictGet k (e.send_message source n payload now).2.registered_services).isSome = true := by
        intro k hk
        rw [hr]
        by_cases hkn : k = n
        · subst hkn
          rw [dictGet_dictUpdate_self, hs]
          rfl
        · rw [dictGet_dictUpdate_ne _ _ hkn]
          exact hreg k (List.mem_cons_of_mem n hk)
      obtain ⟨ihtgt, ihst, ihnot, ihmem, ihsrc⟩ :=
        ih hnd.2 (e.send_message source n payload now).2 hreg1
      have hgetn : dictGet n (e.send_message source n payload now).2.registered_services =
          some { s with message_count := s.message_count + 1 } := by
        rw [hr, dictGet_dictUpdate_self, hs]
        rfl
      have hgetne : ∀ k : String, k ≠ n →
          dictGet k (e.send_message source n payload now).2.registered_services =
            dictGet k e.registered_services := by
        intro k hk
        rw [hr, dictGet_dictUpdate_ne _ _ hk]
      refine ⟨?_, ?_, ?_, ?_, ?_⟩
      · rw [List.map_append, ihtgt, List.filter_cons]
        have : (n != source) = true := by simp [hn]
        rw [this]
        simp [hm]
      · intro m hm'
        rw [List.mem_append] at hm'
        rcases hm' with hm' | hm'
        · rw [List.mem_singleton] at hm'
          subst hm'
          rw [hm]
          exact ⟨rfl, rfl⟩
        · exact ihst m hm'
      · intro k hk
        rw [List.mem_cons, not_or] at hk
        rw [ihnot k hk.2, hgetne k hk.1]
      · intro k hk hksrc
        rw [List.mem_cons] at hk
        rcases hk with hk | hk
        · subst hk
          rw [ihnot k hnd.1, hgetn, hs]
          rfl
        · have hkn : k ≠ n := fun hc => hnd.1 (hc ▸ hk)
          rw [ihmem k hk hksrc, hgetne k hkn]
      · have hsn : source ≠ n := fun hc => hn hc.symm
        rw [ihsrc, hgetne source hsn]
    · have hstep : broadcastStep source payload now ([], e) n = ([], e) := by
        simp [broadcastStep, hn]
      rw [hstep]
      have hns : n = source := not_not.mp (fun hc => hn hc)
      have hreg1 : ∀ k ∈ rest, (dictGet k e.registered_services).isSome = true :=
        fun k hk => hreg k (List.mem_cons_of_mem n hk)
      obtain ⟨ihtgt, ihst, ihnot, ihmem, ihsrc⟩ := ih hnd.2 e hreg1
      refine ⟨?_, ihst, ?_, ?_, ihsrc⟩
      · rw [ihtgt, List.filter_cons]
        have : (n != source) = false := by simp [hns]
        rw [this]
        simp
      · intro k hk
        rw [List.mem_cons, not_or] at hk
        exact ihnot k hk.2
      · intro k hk hksrc
        rw [List.mem_cons] at hk
        rcases hk with hk | hk
        · exact absurd (hk.trans hns) hksrc
        · exact ihmem k hk hksrc

theorem length_filter_ne_of_nodup {l : List String} {a : String}
    (hnd : l.Nodup) (ha : a ∈ l) :
    (l.filter (fun n => n != a)).length = l.length - 1 := by
  induction l with
  | nil => simp at ha
  | cons b t ih =>
    rw [List.nodup_cons] at hnd
    by_cases hb : b = a
    · subst hb
      have hfil : t.filter (fun n => n != b) = t := by
        rw [List.filter_eq_self]
        intro x hx
        have hxb : x ≠ b := fun hc => hnd.1 (hc ▸ hx)
        simp [hxb]
      rw [List.filter_cons]
      have : (b != b) = false := by simp
      rw [this]
      simp [hfil]
    · have hat : a ∈ t := by
        rcases List.mem_cons.mp ha with h | h
        · exact absurd h.symm hb
        · exact h
      have hlen := ih hnd.2 hat
      have ht : 1 ≤ t.length := List.length_pos.mpr (List.ne_nil_of_mem hat)
      rw [List.filter_cons]
      have : (b != a) = true := by simp [hb]
      rw [this]
      simp only [if_true, List.length_cons]
      rw [hlen]
      omega

/-- Claim C5: `broadcast(source, payload)` over an engine with N
registered services, `source` among them, returns exactly N−1 messages —
one per registered service other than `source`, in registry iteration
order — each `delivered`, and increments exactly those N−1 services'
`message_count` by 1, leaving the source's record unchanged.  Registry
keys are pairwise distinct in every state produced by the API (Python
dict keys are unique), taken as the `Nodup` hypothesis. -/
theorem C5_broadcast_fan_out (e : IntegrationEngine) (source : String)
    (payload : StrDict) (now : Nat)
    (hnd : (e.registered_services.map Prod.fst).Nodup)
    (hsrc : source ∈ e.registered_services.map Prod.fst) :
    (e.broadcast source payload now).1.length = e.registered_services.length - 1 ∧
    (e.broadcast source payload now).1.map Message.target =
      (e.registered_services.map Prod.fst).filter (fun n => n != source) ∧
    (∀ m ∈ (e.broadcast source payload now).1, m.status = "delivered") ∧
    (∀ k : String, k ≠ source →
      dictGet k (e.broadcast source payload now).2.registered_services =
        (dictGet k e.registered_services).map
          (fun s => { s with message_count := s.message_count + 1 })) ∧
    dictGet source (e.broadcast source payload now).2.registered_services =
      dictGet source e.registered_services := by
  have hreg : ∀ n ∈ e.registered_services.map Prod.fst,
      (dictGet n e.registered_services).isSome = true :=
    fun n hn => dictGet_isSome_of_mem hn
  obtain ⟨htgt, hst, hnotmem, hmem, hsrce⟩ :=
    broadcast_fold_spec source payload now (e.registered_services.map Prod.fst) hnd e hreg
  unfold IntegrationEngine.broadcast
  refine ⟨?_, htgt, fun m hm => (hst m hm).1, ?_, hsrce⟩
  · have hlen := congrArg List.length htgt
    rw [List.length_map] at hlen
    rw [hlen, length_filter_ne_of_nodup hnd hsrc, List.length_map]
  · intro k hk
    by_cases hkm : k ∈ e.registered_services.map Prod.fst
    · exact hmem k hkm hk
    · rw [hnotmem k hkm, dictGet_eq_none_of_not_mem hkm]
      rfl

/-- Concrete engine with three registered services used by the C5
witness. -/
def wEngine5 : IntegrationEngine :=
  (((IntegrationEngine.init 0).register_service "alpha" "t" "" none 1).register_service
      "beta" "t" "" none 2).register_service "gamma" "t" "" none 3

/-- Witness for C5: broadcasting from `alpha` over three services yields
2 = 3 − 1 messages, targeting `beta` and `gamma` in registry order, both
delivered. -/
theorem C5_broadcast_fan_out_witness :
    (wEngine5.broadcast "alpha" ([] : StrDict) 4).1.length =
      wEngine5.registered_services.length - 1 ∧
    (wEngine5.broadcast "alpha" ([] : StrDict) 4).1.map Message.target =
      ["beta", "gamma"] := by
  obtain ⟨h1, h2, _, _, _⟩ :=
    C5_broadcast_fan_out wEngine5 "alpha" ([] : StrDict) 4 (by decide) (by decide)
  refine ⟨h1, ?_⟩
  rw [h2]
  decide
